import Mathlib

/-
  Verification of the expense-claim workflow core (receipt / batch / float logic).

  Shallow embedding notes:
  * Monetary amounts are modelled in integer cents.  The store keeps them as
    decimal(10,2) columns, so every stored amount is an exact multiple of 0.01;
    sums of such values are exact and `toFixed(2)` is the identity on them.
  * Nullable columns become `Option`.  Timestamps, image references, AI metadata
    and the append-only activity log are irrelevant to the verified properties
    and are omitted from the record types.
  * The fallible server operations (`hodApprove`, `financeApprove` throw
    "Batch not found") return `Option St`; `none` models the thrown error.
  * `getReceiptsByBatch` orders rows by category/createdAt in SQL; the order is
    irrelevant to every property proved here (all row updates are keyed by id),
    so the embedding keeps store order.
-/

namespace Claimify

/-- Receipt lifecycle states (mysqlEnum "status" on the receipts table). -/
inductive ReceiptStatus where
  | submitted
  | admin_approved
  | hod_approved
  | paid
  | rejected
deriving DecidableEq, Repr

/-- Batch lifecycle states (mysqlEnum "status" on the batches table). -/
inductive BatchStatus where
  | pending_hod
  | pending_finance
  | approved
  | paid
  | rejected
deriving DecidableEq, Repr

/-- The receipt row fields relevant to the workflow core. -/
structure Receipt where
  id : Nat
  departmentId : Nat
  amountTotal : Option Int
  amountGst : Option Int
  status : ReceiptStatus
  batchId : Option Nat
  rejectedBy : Option String
  rejectionReason : Option String
deriving DecidableEq, Repr

/-- The batch row fields relevant to the workflow core. -/
structure Batch where
  id : Nat
  departmentId : Nat
  totalAmount : Int
  totalGst : Int
  status : BatchStatus
deriving DecidableEq, Repr

/-- A department row; `floatAmount` is NOT NULL with default 3500.00. -/
structure Department where
  id : Nat
  name : String
  floatAmount : Int
deriving DecidableEq, Repr

/-- The persisted store: the three relations the claims touch, plus the
auto-increment counters for fresh row ids. -/
structure St where
  departments : List Department
  receipts : List Receipt
  batches : List Batch
  nextReceiptId : Nat
  nextBatchId : Nat
deriving DecidableEq, Repr

/-- Result record of `calculateDepartmentFloat`. -/
structure FloatInfo where
  totalFloat : Int
  usedFloat : Int
  remainingFloat : Int
deriving DecidableEq, Repr

/-- db.getDepartmentById: SELECT ... WHERE id = ? LIMIT 1. -/
def getDepartmentById (s : St) (id : Nat) : Option Department :=
  s.departments.find? (fun d => d.id == id)

/-- db.getReceiptById: SELECT ... WHERE id = ? LIMIT 1. -/
def getReceiptById (s : St) (id : Nat) : Option Receipt :=
  s.receipts.find? (fun r => r.id == id)

/-- db.getBatchById: SELECT ... WHERE id = ? LIMIT 1. -/
def getBatchById (s : St) (id : Nat) : Option Batch :=
  s.batches.find? (fun b => b.id == id)

/-- db.getReceiptsByBatch: SELECT ... WHERE batchId = ?. -/
def getReceiptsByBatch (s : St) (batchId : Nat) : List Receipt :=
  s.receipts.filter (fun r => r.batchId == some batchId)

/-- The row rewrite of db.updateReceiptStatus: set the status field. -/
def statusUpd (status : ReceiptStatus) (r : Receipt) : Receipt :=
  { r with status := status }

/-- The row rewrite of db.rejectReceipt: status=rejected, actor, reason, and
batchId cleared unconditionally. -/
def rejectUpd (rejectedBy reason : String) (r : Receipt) : Receipt :=
  { r with status := ReceiptStatus.rejected,
           rejectedBy := some rejectedBy,
           rejectionReason := some reason,
           batchId := none }

/-- db.updateReceiptStatus: UPDATE receipts SET status = ? WHERE id = ?
(the stage timestamps it also sets are not modelled). -/
def updateReceiptStatus (s : St) (id : Nat) (status : ReceiptStatus) : St :=
  { s with receipts := s.receipts.map (fun r =>
      if r.id = id then statusUpd status r else r) }

/-- db.rejectReceipt: sets status=rejected, records the actor and reason, and
clears batchId unconditionally. -/
def rejectReceipt (s : St) (id : Nat) (rejectedBy : String) (reason : String) : St :=
  { s with receipts := s.receipts.map (fun r =>
      if r.id = id then rejectUpd rejectedBy reason r else r) }

/-- db.createBatch: fetches the named receipts, sums their amounts treating a
null amount as "0", inserts a batch in state pending_hod, and sets batchId on
each named receipt (without touching its status). Returns the new batch id. -/
def createBatch (s : St) (departmentId : Nat) (receiptIds : List Nat) : St × Nat :=
  let receiptList := s.receipts.filter (fun r => receiptIds.contains r.id)
  let totalAmount := receiptList.foldl (fun acc r => acc + r.amountTotal.getD 0) 0
  let totalGst := receiptList.foldl (fun acc r => acc + r.amountGst.getD 0) 0
  let batchId := s.nextBatchId
  let s' : St :=
    { s with
      batches := s.batches ++
        [{ id := batchId, departmentId := departmentId,
           totalAmount := totalAmount, totalGst := totalGst,
           status := BatchStatus.pending_hod }],
      nextBatchId := s.nextBatchId + 1,
      receipts := s.receipts.map (fun r =>
        if receiptIds.contains r.id then { r with batchId := some batchId } else r) }
  (s', batchId)

/-- db.recalculateBatchTotals: re-sums amountTotal/amountGst over the batch's
members that are currently admin_approved (null amounts count as "0") and
stores the totals on the batch row. -/
def recalculateBatchTotals (s : St) (batchId : Nat) : St :=
  let receiptList := s.receipts.filter (fun r =>
    r.batchId == some batchId && r.status == ReceiptStatus.admin_approved)
  let totalAmount := receiptList.foldl (fun acc r => acc + r.amountTotal.getD 0) 0
  let totalGst := receiptList.foldl (fun acc r => acc + r.amountGst.getD 0) 0
  { s with batches := s.batches.map (fun b =>
      if b.id = batchId then { b with totalAmount := totalAmount, totalGst := totalGst } else b) }

/-- db.updateBatchStatus: UPDATE batches SET status = ? WHERE id = ?
(stage timestamps not modelled). -/
def updateBatchStatus (s : St) (id : Nat) (status : BatchStatus) : St :=
  { s with batches := s.batches.map (fun b =>
      if b.id = id then { b with status := status } else b) }

/-- Default float ceiling used when the department row is missing:
parseFloat(dept?.floatAmount?.toString() || "3500"), in cents. -/
def defaultFloat : Int := 350000

/-- db.calculateDepartmentFloat: totalFloat is the department's floatAmount
(default 3500 when the department row is missing); usedFloat sums amountTotal
over the department's receipts in status admin_approved or hod_approved
(null amounts count as "0"); remainingFloat is the difference. -/
def calculateDepartmentFloat (s : St) (departmentId : Nat) : FloatInfo :=
  let totalFloat :=
    match getDepartmentById s departmentId with
    | some d => d.floatAmount
    | none => defaultFloat
  let approvedReceipts := s.receipts.filter (fun r =>
    r.departmentId == departmentId &&
      (r.status == ReceiptStatus.admin_approved || r.status == ReceiptStatus.hod_approved))
  let usedFloat := approvedReceipts.foldl (fun acc r => acc + r.amountTotal.getD 0) 0
  { totalFloat := totalFloat, usedFloat := usedFloat,
    remainingFloat := totalFloat - usedFloat }

/-- receipt.create (router): inserts a new receipt in status "submitted" with
no batch and no rejection metadata. -/
def receiptCreate (s : St) (departmentId : Nat) (amountTotal amountGst : Option Int) : St :=
  { s with
    receipts := s.receipts ++
      [{ id := s.nextReceiptId, departmentId := departmentId,
         amountTotal := amountTotal, amountGst := amountGst,
         status := ReceiptStatus.submitted, batchId := none,
         rejectedBy := none, rejectionReason := none }],
    nextReceiptId := s.nextReceiptId + 1 }

/-- receipt.adminApprove (router): unconditionally sets the receipt's status to
admin_approved; there is no guard on the current status and no error path. -/
def adminApprove (s : St) (id : Nat) : St :=
  updateReceiptStatus s id ReceiptStatus.admin_approved

/-- receipt.reject (router): unconditionally rejects the receipt with the given
actor label and reason; no guard on the current status. -/
def receiptReject (s : St) (id : Nat) (rejectedBy : String) (reason : String) : St :=
  rejectReceipt s id rejectedBy reason

/-- The default reason used by batch.hodApprove for line-item rejections. -/
def defaultRejectionReason : String := "Rejected during batch approval"

/-- The rejection loop at the start of batch.hodApprove: each listed receipt is
rejected with actor "HOD" and its individual reason (or the default). -/
def applyHodRejections (s : St) (rejectedReceiptIds : List Nat)
    (rejectionReasons : Nat → Option String) : St :=
  rejectedReceiptIds.foldl
    (fun st rid =>
      rejectReceipt st rid "HOD" ((rejectionReasons rid).getD defaultRejectionReason))
    s

/-- batch.hodApprove (router): throws "Batch not found" on an unknown batch id;
otherwise rejects the listed receipts, recalculates the batch totals, promotes
every member still admin_approved to hod_approved, and finally moves the batch
to pending_finance (unconditionally - the batch always advances). -/
def hodApprove (s : St) (batchId : Nat) (rejectedReceiptIds : List Nat)
    (rejectionReasons : Nat → Option String) : Option St :=
  match getBatchById s batchId with
  | none => none
  | some _ =>
    let s1 := applyHodRejections s rejectedReceiptIds rejectionReasons
    let s2 := recalculateBatchTotals s1 batchId
    let members := getReceiptsByBatch s2 batchId
    let s3 := members.foldl
      (fun st r =>
        if r.status = ReceiptStatus.admin_approved
        then updateReceiptStatus st r.id ReceiptStatus.hod_approved
        else st)
      s2
    some (updateBatchStatus s3 batchId BatchStatus.pending_finance)

/-- batch.financeApprove (router): throws "Batch not found" on an unknown batch
id; otherwise marks every hod_approved member as paid and the batch as paid. -/
def financeApprove (s : St) (batchId : Nat) : Option St :=
  match getBatchById s batchId with
  | none => none
  | some _ =>
    let members := getReceiptsByBatch s batchId
    let s1 := members.foldl
      (fun st r =>
        if r.status = ReceiptStatus.hod_approved
        then updateReceiptStatus st r.id ReceiptStatus.paid
        else st)
      s
    some (updateBatchStatus s1 batchId BatchStatus.paid)

/-- One elapsed day in milliseconds, the divisor in the date rule. -/
def dayMs : Int := 86400000

/-- The flag string appended by the post-extraction date rule. -/
def tooOldFlag : String := "Receipt too old"

/-- The post-extraction date rule in extractReceiptData: when a transaction
date is present, compute the floored number of elapsed days between "now" and
the date and append "Receipt too old" when that exceeds 30 and the flag is not
already present. Times are epoch milliseconds. -/
def applyDateRule (transactionDate : Option Int) (now : Int)
    (flags : List String) : List String :=
  match transactionDate with
  | none => flags
  | some receiptDate =>
    let daysSinceReceipt := Int.fdiv (now - receiptDate) dayMs
    if daysSinceReceipt > 30 ∧ tooOldFlag ∉ flags
    then flags ++ [tooOldFlag]
    else flags

/-- Spec-side sum: amountTotal over the department's receipts whose status is
admin_approved or hod_approved, written as the specification words it. -/
def usedFloatSpec (s : St) (departmentId : Nat) : Int :=
  (s.receipts.map (fun r =>
    if r.departmentId = departmentId ∧
        (r.status = ReceiptStatus.admin_approved ∨ r.status = ReceiptStatus.hod_approved)
    then r.amountTotal.getD 0 else 0)).sum

/-- Spec-side sum: amountTotal over the batch's member receipts whose status is
not rejected. -/
def nonRejectedMemberAmount (s : St) (batchId : Nat) : Int :=
  (s.receipts.map (fun r =>
    if r.batchId = some batchId ∧ r.status ≠ ReceiptStatus.rejected
    then r.amountTotal.getD 0 else 0)).sum

/-- Spec-side sum: amountGst over the batch's member receipts whose status is
not rejected. -/
def nonRejectedMemberGst (s : St) (batchId : Nat) : Int :=
  (s.receipts.map (fun r =>
    if r.batchId = some batchId ∧ r.status ≠ ReceiptStatus.rejected
    then r.amountGst.getD 0 else 0)).sum

/-- The amountTotal sum recalculateBatchTotals stores: over members currently
admin_approved, null amounts as 0. -/
def recalcAmountAt (s : St) (batchId : Nat) : Int :=
  (s.receipts.filter (fun r =>
    r.batchId == some batchId && r.status == ReceiptStatus.admin_approved)).foldl
    (fun acc r => acc + r.amountTotal.getD 0) 0

/-- The amountGst sum recalculateBatchTotals stores. -/
def recalcGstAt (s : St) (batchId : Nat) : Int :=
  (s.receipts.filter (fun r =>
    r.batchId == some batchId && r.status == ReceiptStatus.admin_approved)).foldl
    (fun acc r => acc + r.amountGst.getD 0) 0

/-- The per-receipt effect of the hodApprove rejection loop: a receipt whose id
is listed is rejected (actor HOD, individual or default reason, detached). -/
def rejFun (rejectedReceiptIds : List Nat) (rejectionReasons : Nat → Option String)
    (r : Receipt) : Receipt :=
  if r.id ∈ rejectedReceiptIds then
    rejectUpd "HOD" ((rejectionReasons r.id).getD defaultRejectionReason) r
  else r

/-- The per-receipt effect of a promote loop (hodApprove: admin_approved to
hod_approved over the batch's members; financeApprove: hod_approved to paid). -/
def promFun (batchId : Nat) (src tgt : ReceiptStatus) (r : Receipt) : Receipt :=
  if r.batchId = some batchId ∧ r.status = src then statusUpd tgt r else r

/-- The invariant claimed in the specification: a rejected receipt never
belongs to a batch. -/
def RejectedDetached (s : St) : Prop :=
  ∀ r ∈ s.receipts, r.status = ReceiptStatus.rejected → r.batchId = none

/-- One server call mutating the store, with batch.create restricted to
receipt ids that are not currently rejected (part of its documented
precondition; the running system only batches admin_approved receipts). -/
inductive GoodStep : St → St → Prop where
  | receiptCreate {s : St} (departmentId : Nat) (amountTotal amountGst : Option Int) :
      GoodStep s (receiptCreate s departmentId amountTotal amountGst)
  | adminApprove {s : St} (id : Nat) : GoodStep s (adminApprove s id)
  | receiptReject {s : St} (id : Nat) (rejectedBy reason : String) :
      GoodStep s (receiptReject s id rejectedBy reason)
  | createBatch {s : St} (departmentId : Nat) (receiptIds : List Nat)
      (h : ∀ r ∈ s.receipts, r.id ∈ receiptIds → r.status ≠ ReceiptStatus.rejected) :
      GoodStep s (createBatch s departmentId receiptIds).1
  | hodApprove {s s' : St} (batchId : Nat) (rejectedReceiptIds : List Nat)
      (rejectionReasons : Nat → Option String)
      (h : hodApprove s batchId rejectedReceiptIds rejectionReasons = some s') :
      GoodStep s s'
  | financeApprove {s s' : St} (batchId : Nat)
      (h : financeApprove s batchId = some s') : GoodStep s s'

section Helpers

variable {α β : Type}

/-- Folding additions equals the sum of the mapped list. -/
theorem foldl_add_eq_sum (f : α → Int) (l : List α) (a : Int) :
    l.foldl (fun acc x => acc + f x) a = a + (l.map f).sum := by
  induction l generalizing a with
  | nil => simp
  | cons x t ih => simp [ih, add_assoc]

/-- Summing a mapped filter equals summing with the predicate as a guard. -/
theorem sum_filter_map (p : α → Bool) (f : α → Int) (l : List α) :
    ((l.filter p).map f).sum = (l.map (fun x => if p x then f x else 0)).sum := by
  induction l with
  | nil => rfl
  | cons x t ih =>
    by_cases h : p x <;> simp [List.filter_cons, h, ih]

/-- A fold of receipt-list rewrites over the store is the store with the folded
receipt list. -/
theorem foldl_receipts_map (f : α → Receipt → Receipt) (l : List α) (s : St) :
    l.foldl (fun st a => { st with receipts := st.receipts.map (f a) }) s =
      { s with receipts := l.foldl (fun rs a => rs.map (f a)) s.receipts } := by
  induction l generalizing s with
  | nil => rfl
  | cons a t ih => simp [List.foldl_cons, ih]

/-- Folding element-wise rewrites over a list commutes to a single map of the
per-element fold. -/
theorem foldl_map_comm (g : α → β → β) (ms : List α) (l : List β) :
    ms.foldl (fun acc m => acc.map (g m)) l =
      l.map (fun x => ms.foldl (fun y m => g m y) x) := by
  induction ms generalizing l with
  | nil => simp
  | cons m t ih => simp [List.foldl_cons, ih, List.map_map]

end Helpers

section RowRewrites

@[simp] theorem statusUpd_id (st : ReceiptStatus) (r : Receipt) :
    (statusUpd st r).id = r.id := rfl

@[simp] theorem statusUpd_batchId (st : ReceiptStatus) (r : Receipt) :
    (statusUpd st r).batchId = r.batchId := rfl

@[simp] theorem statusUpd_status (st : ReceiptStatus) (r : Receipt) :
    (statusUpd st r).status = st := rfl

@[simp] theorem statusUpd_amountTotal (st : ReceiptStatus) (r : Receipt) :
    (statusUpd st r).amountTotal = r.amountTotal := rfl

@[simp] theorem statusUpd_amountGst (st : ReceiptStatus) (r : Receipt) :
    (statusUpd st r).amountGst = r.amountGst := rfl

@[simp] theorem rejectUpd_id (a c : String) (r : Receipt) :
    (rejectUpd a c r).id = r.id := rfl

@[simp] theorem rejectUpd_batchId (a c : String) (r : Receipt) :
    (rejectUpd a c r).batchId = none := rfl

@[simp] theorem rejectUpd_status (a c : String) (r : Receipt) :
    (rejectUpd a c r).status = ReceiptStatus.rejected := rfl

@[simp] theorem rejectUpd_rejectedBy (a c : String) (r : Receipt) :
    (rejectUpd a c r).rejectedBy = some a := rfl

@[simp] theorem rejectUpd_rejectionReason (a c : String) (r : Receipt) :
    (rejectUpd a c r).rejectionReason = some c := rfl

@[simp] theorem rejectUpd_amountTotal (a c : String) (r : Receipt) :
    (rejectUpd a c r).amountTotal = r.amountTotal := rfl

@[simp] theorem rejectUpd_amountGst (a c : String) (r : Receipt) :
    (rejectUpd a c r).amountGst = r.amountGst := rfl

@[simp] theorem rejectUpd_rejectUpd (a c a' c' : String) (r : Receipt) :
    rejectUpd a c (rejectUpd a' c' r) = rejectUpd a c r := rfl

@[simp] theorem rejFun_id (rids : List Nat) (rs : Nat → Option String) (r : Receipt) :
    (rejFun rids rs r).id = r.id := by
  unfold rejFun; split <;> rfl

@[simp] theorem promFun_id (bid : Nat) (src tgt : ReceiptStatus) (r : Receipt) :
    (promFun bid src tgt r).id = r.id := by
  unfold promFun; split <;> rfl

end RowRewrites

section FoldCharacterizations

/-- The per-receipt effect of the hodApprove rejection loop, folded out. -/
theorem reject_inner (rids : List Nat) (rs : Nat → Option String) (y : Receipt) :
    rids.foldl
      (fun z rid =>
        if z.id = rid then rejectUpd "HOD" ((rs rid).getD defaultRejectionReason) z else z)
      y = rejFun rids rs y := by
  induction rids generalizing y with
  | nil => simp [rejFun]
  | cons rid t ih =>
    simp only [List.foldl_cons]
    by_cases h : y.id = rid
    · subst h
      rw [if_pos rfl, ih]
      by_cases hm : y.id ∈ t <;>
        simp [rejFun, hm, List.mem_cons]
    · rw [if_neg h, ih]
      by_cases hm : y.id ∈ t <;>
        simp [rejFun, hm, List.mem_cons, h]

/-- The rejection loop of hodApprove rewrites the receipt list pointwise. -/
theorem applyHodRejections_eq (s : St) (rids : List Nat) (rs : Nat → Option String) :
    applyHodRejections s rids rs = { s with receipts := s.receipts.map (rejFun rids rs) } := by
  unfold applyHodRejections rejectReceipt
  rw [foldl_receipts_map, foldl_map_comm]
  congr 1
  exact List.map_congr_left (fun y _ => reject_inner rids rs y)

/-- recalculateBatchTotals stores the admin_approved member sums on the batch
row and leaves receipts untouched. -/
theorem recalculateBatchTotals_eq (s : St) (bid : Nat) :
    recalculateBatchTotals s bid =
      { s with batches := s.batches.map (fun b =>
          if b.id = bid then
            { b with totalAmount := recalcAmountAt s bid, totalGst := recalcGstAt s bid }
          else b) } := rfl

/-- A status-guarded update loop is a fold of receipt-list rewrites. -/
theorem promote_step_eq (src tgt : ReceiptStatus) :
    (fun (st : St) (r : Receipt) =>
        if r.status = src then updateReceiptStatus st r.id tgt else st) =
      fun st r =>
        { st with receipts :=
            st.receipts.map (fun z =>
              if r.status = src ∧ z.id = r.id then statusUpd tgt z else z) } := by
  funext st r
  by_cases h : r.status = src
  · simp [updateReceiptStatus, h]
  · simp [h]

/-- Folding a status-guarded promote over rows with distinct ids touches each
receipt at most once. -/
theorem promote_inner (src tgt : ReceiptStatus) (ms : List Receipt) (y : Receipt)
    (hnd : (ms.map Receipt.id).Nodup) :
    ms.foldl (fun z r => if r.status = src ∧ z.id = r.id then statusUpd tgt z else z) y =
      if ∃ r ∈ ms, r.id = y.id ∧ r.status = src then statusUpd tgt y else y := by
  induction ms generalizing y with
  | nil => simp
  | cons m t ih =>
    simp only [List.map_cons, List.nodup_cons, List.mem_map] at hnd
    obtain ⟨hm, ht⟩ := hnd
    simp only [List.foldl_cons]
    by_cases hc : m.status = src ∧ y.id = m.id
    · rw [if_pos hc, ih _ ht]
      have hnone : ¬ ∃ r ∈ t, r.id = (statusUpd tgt y).id ∧ r.status = src := by
        rintro ⟨r, hr, hrid, -⟩
        exact hm ⟨r, hr, by simpa [hc.2] using hrid⟩
      rw [if_neg hnone]
      have : ∃ r ∈ m :: t, r.id = y.id ∧ r.status = src :=
        ⟨m, List.mem_cons_self m t, hc.2.symm, hc.1⟩
      rw [if_pos this]
    · rw [if_neg hc, ih _ ht]
      by_cases hex : ∃ r ∈ t, r.id = y.id ∧ r.status = src
      · rw [if_pos hex]
        rcases hex with ⟨r, hr, hrid, hrs⟩
        rw [if_pos ⟨r, List.mem_cons_of_mem m hr, hrid, hrs⟩]
      · rw [if_neg hex, if_neg]
        rintro ⟨r, hr, hrid, hrs⟩
        rcases List.mem_cons.mp hr with rfl | hr'
        · exact hc ⟨hrs, hrid.symm⟩
        · exact hex ⟨r, hr', hrid, hrs⟩

/-- A status-guarded promote fold over a member snapshot, as a store rewrite. -/
theorem promote_st_fold (src tgt : ReceiptStatus) (ms : List Receipt) (s : St)
    (hnd : (ms.map Receipt.id).Nodup) :
    ms.foldl (fun st r => if r.status = src then updateReceiptStatus st r.id tgt else st) s =
      { s with receipts := s.receipts.map (fun y =>
          if ∃ r ∈ ms, r.id = y.id ∧ r.status = src then statusUpd tgt y else y) } := by
  rw [promote_step_eq src tgt, foldl_receipts_map, foldl_map_comm]
  congr 1
  exact List.map_congr_left (fun y _ => promote_inner src tgt ms y hnd)

/-- The promote loops of hodApprove/financeApprove: over the batch's current
members, every receipt in the source status moves to the target status. -/
theorem promote_members (src tgt : ReceiptStatus) (bid : Nat) (s : St)
    (hnd : (s.receipts.map Receipt.id).Nodup) :
    (getReceiptsByBatch s bid).foldl
        (fun st r => if r.status = src then updateReceiptStatus st r.id tgt else st) s =
      { s with receipts := s.receipts.map (promFun bid src tgt) } := by
  have hsub : ((getReceiptsByBatch s bid).map Receipt.id).Nodup :=
    hnd.sublist ((List.filter_sublist s.receipts).map Receipt.id)
  rw [promote_st_fold src tgt _ s hsub]
  congr 1
  apply List.map_congr_left
  intro y hy
  by_cases hc : y.batchId = some bid ∧ y.status = src
  · rw [if_pos ⟨y, List.mem_filter.mpr ⟨hy, by simp [hc.1]⟩, rfl, hc.2⟩]
    simp [promFun, hc]
  · rw [if_neg, promFun, if_neg hc]
    rintro ⟨r, hr, hrid, hrs⟩
    rcases List.mem_filter.mp hr with ⟨hrmem, hrbid⟩
    have : r = y := List.inj_on_of_nodup_map hnd hrmem hy hrid
    subst this
    exact hc ⟨by simpa using hrbid, hrs⟩

/-- Ids are untouched by the rejection loop. -/
theorem map_id_rejFun (l : List Receipt) (rids : List Nat) (rs : Nat → Option String) :
    (l.map (rejFun rids rs)).map Receipt.id = l.map Receipt.id := by
  simp [List.map_map, Function.comp]

/-- Full characterization of batch.hodApprove on an existing batch: the listed
receipts are rejected and detached, the batch row receives the totals computed
on the post-rejection store, the members still admin_approved move to
hod_approved, and the batch moves to pending_finance. -/
theorem hodApprove_eq (s : St) (bid : Nat) (rids : List Nat) (rs : Nat → Option String)
    (b : Batch) (hb : getBatchById s bid = some b)
    (hnd : (s.receipts.map Receipt.id).Nodup) :
    hodApprove s bid rids rs = some
      { departments := s.departments,
        receipts := (s.receipts.map (rejFun rids rs)).map
          (promFun bid ReceiptStatus.admin_approved ReceiptStatus.hod_approved),
        batches := s.batches.map (fun c =>
          if c.id = bid then
            { c with totalAmount := recalcAmountAt (applyHodRejections s rids rs) bid,
                     totalGst := recalcGstAt (applyHodRejections s rids rs) bid,
                     status := BatchStatus.pending_finance }
          else c),
        nextReceiptId := s.nextReceiptId,
        nextBatchId := s.nextBatchId } := by
  have hnd1 : (((applyHodRejections s rids rs).receipts).map Receipt.id).Nodup := by
    rw [applyHodRejections_eq, map_id_rejFun]
    exact hnd
  unfold hodApprove
  rw [hb]
  dsimp only
  rw [promote_members ReceiptStatus.admin_approved ReceiptStatus.hod_approved bid
        (recalculateBatchTotals (applyHodRejections s rids rs) bid) hnd1]
  unfold updateBatchStatus
  rw [recalculateBatchTotals_eq, applyHodRejections_eq]
  dsimp only
  simp only [Option.some.injEq, St.mk.injEq, List.map_map, true_and, and_true]
  apply List.map_congr_left
  intro c _
  by_cases hc : c.id = bid <;> simp [Function.comp, hc]

/-- Full characterization of batch.financeApprove on an existing batch: the
hod_approved members move to paid, everything else is untouched, and the batch
moves to paid. -/
theorem financeApprove_eq (s : St) (bid : Nat) (b : Batch)
    (hb : getBatchById s bid = some b)
    (hnd : (s.receipts.map Receipt.id).Nodup) :
    financeApprove s bid = some
      { departments := s.departments,
        receipts := s.receipts.map (promFun bid ReceiptStatus.hod_approved ReceiptStatus.paid),
        batches := s.batches.map (fun c =>
          if c.id = bid then { c with status := BatchStatus.paid } else c),
        nextReceiptId := s.nextReceiptId,
        nextBatchId := s.nextBatchId } := by
  unfold financeApprove
  rw [hb]
  dsimp only
  rw [promote_members ReceiptStatus.hod_approved ReceiptStatus.paid bid s hnd]
  rfl

end FoldCharacterizations

section FloatLemmas

/-- The usedFloat fold of calculateDepartmentFloat equals the spec-side sum. -/
theorem usedFloat_eq (s : St) (did : Nat) :
    (s.receipts.filter (fun r =>
      r.departmentId == did &&
        (r.status == ReceiptStatus.admin_approved ||
          r.status == ReceiptStatus.hod_approved))).foldl
      (fun acc r => acc + r.amountTotal.getD 0) 0 = usedFloatSpec s did := by
  rw [foldl_add_eq_sum, zero_add, sum_filter_map]
  unfold usedFloatSpec
  apply congrArg List.sum
  apply List.map_congr_left
  intro r _
  simp only [Bool.and_eq_true, Bool.or_eq_true, beq_iff_eq]

end FloatLemmas

section ConcreteStates

/-- A department with the seeded default float of 3500.00. -/
def dept1 : Department := { id := 1, name := "Logistics", floatAmount := 350000 }

/-- A department over-approved beyond its float ceiling: one admin_approved
receipt of 4000.00 against a 3500.00 float. -/
def stOverApproved : St :=
  { departments := [dept1],
    receipts := [{ id := 1, departmentId := 1, amountTotal := some 400000,
                   amountGst := some 28000, status := ReceiptStatus.admin_approved,
                   batchId := none, rejectedBy := none, rejectionReason := none }],
    batches := [], nextReceiptId := 2, nextBatchId := 1 }

/-- A store holding a single paid receipt. -/
def stPaid : St :=
  { departments := [],
    receipts := [{ id := 1, departmentId := 1, amountTotal := some 2000,
                   amountGst := some 140, status := ReceiptStatus.paid,
                   batchId := none, rejectedBy := none, rejectionReason := none }],
    batches := [], nextReceiptId := 2, nextBatchId := 1 }

/-- A store holding a single rejected receipt. -/
def stRejected : St :=
  { departments := [],
    receipts := [{ id := 1, departmentId := 1, amountTotal := some 2000,
                   amountGst := some 140, status := ReceiptStatus.rejected,
                   batchId := none, rejectedBy := some "Admin",
                   rejectionReason := some "bad scan" }],
    batches := [], nextReceiptId := 2, nextBatchId := 1 }

end ConcreteStates

/-- C1: getFloat(D) returns totalFloat = D.floatAmount, usedFloat = the sum of
amountTotal over D's receipts in status admin_approved or hod_approved (so
submitted, paid and rejected receipts contribute nothing), and remainingFloat
= D.floatAmount - usedFloat; the operation is total, so a negative
remainingFloat is returned rather than failing. -/
theorem float_invariant (s : St) (did : Nat) (d : Department)
    (hd : getDepartmentById s did = some d) :
    calculateDepartmentFloat s did =
      { totalFloat := d.floatAmount,
        usedFloat := usedFloatSpec s did,
        remainingFloat := d.floatAmount - usedFloatSpec s did } := by
  unfold calculateDepartmentFloat
  rw [hd]
  dsimp only
  rw [usedFloat_eq]

/-- C1 witness: a concrete over-approved department, where the returned
remainingFloat is negative (4000.00 approved against a 3500.00 float). -/
theorem float_invariant_witness :
    calculateDepartmentFloat stOverApproved 1 =
      { totalFloat := 350000, usedFloat := 400000, remainingFloat := -50000 } := by
  rw [float_invariant stOverApproved 1 dept1 (by rfl)]
  decide

/-- C5 (code bug): the terminal states paid and rejected are not sticky:
receipt.reject moves a paid receipt to rejected, and receipt.adminApprove
moves a rejected receipt back to admin_approved; neither operation guards the
source state. -/
theorem terminal_states_bug :
    (stPaid.receipts.map Receipt.status = [ReceiptStatus.paid] ∧
      (receiptReject stPaid 1 "Finance" "duplicate claim").receipts.map Receipt.status =
        [ReceiptStatus.rejected]) ∧
    (stRejected.receipts.map Receipt.status = [ReceiptStatus.rejected] ∧
      (adminApprove stRejected 1).receipts.map Receipt.status =
        [ReceiptStatus.admin_approved]) := by
  decide

/-- C6 (code bug): receipt.adminApprove on a receipt that is not submitted
does not fail with InvalidStateTransition: it mutates the receipt to
admin_approved (the embedded operation, like the source, has no error path),
and receipt.reject on a paid receipt likewise mutates it. -/
theorem invalid_transition_bug :
    (adminApprove stRejected 1).receipts.map Receipt.status =
        [ReceiptStatus.admin_approved] ∧
      adminApprove stRejected 1 ≠ stRejected ∧
      (receiptReject stPaid 1 "Admin" "late").receipts.map Receipt.status =
        [ReceiptStatus.rejected] ∧
      receiptReject stPaid 1 "Admin" "late" ≠ stPaid := by
  decide

section DateRule

/-- Floor-division characterization of the 30-day cutoff: strictly more than
30 whole elapsed days means at least 31 days in milliseconds. -/
theorem fdiv_day_gt (a : Int) : 30 < Int.fdiv a dayMs ↔ 31 * dayMs ≤ a := by
  have h1 := Int.fdiv_add_fmod a dayMs
  have h2 := Int.fmod_nonneg' a (b := dayMs) (by decide)
  have h3 := Int.fmod_lt_of_pos a (b := dayMs) (by decide)
  unfold dayMs at h1 h2 h3 ⊢
  omega

end DateRule

/-- C8: the post-extraction date rule appends "Receipt too old" (when not
already present) exactly when the transaction date lies at least 31 whole
elapsed days in the past (floored elapsed days > 30); a receipt dated 10 days
ago is not flagged, one dated 45 days ago is flagged, and a future-dated
receipt is never flagged by this rule. -/
theorem date_flag_spec (now t : Int) (flags : List String) :
    (tooOldFlag ∈ flags → applyDateRule (some t) now flags = flags) ∧
    (tooOldFlag ∉ flags →
      ((tooOldFlag ∈ applyDateRule (some t) now flags) ↔ 31 * dayMs ≤ now - t) ∧
      (now - t = 10 * dayMs → applyDateRule (some t) now flags = flags) ∧
      (now - t = 45 * dayMs → tooOldFlag ∈ applyDateRule (some t) now flags) ∧
      (now < t → applyDateRule (some t) now flags = flags)) := by
  have hiff := fdiv_day_gt (now - t)
  constructor
  · intro hin
    unfold applyDateRule
    dsimp only
    rw [if_neg]
    rintro ⟨-, hno⟩
    exact hno hin
  · intro hn
    refine ⟨?_, ?_, ?_, ?_⟩
    · unfold applyDateRule
      dsimp only
      by_cases hd : 30 < Int.fdiv (now - t) dayMs
      · rw [if_pos ⟨hd, hn⟩]
        constructor
        · intro _; exact hiff.mp hd
        · intro _; exact List.mem_append_right _ (List.mem_singleton_self _)
      · rw [if_neg (fun hc => hd hc.1)]
        constructor
        · intro hmem; exact absurd hmem hn
        · intro hle; exact absurd (hiff.mpr hle) hd
    · intro h10
      unfold applyDateRule
      dsimp only
      rw [if_neg]
      rintro ⟨hd, -⟩
      have h31 := hiff.mp hd
      rw [h10] at h31
      unfold dayMs at h31
      omega
    · intro h45
      unfold applyDateRule
      dsimp only
      rw [if_pos ⟨hiff.mpr (by rw [h45]; unfold dayMs; omega), hn⟩]
      exact List.mem_append_right _ (List.mem_singleton_self _)
    · intro hlt
      unfold applyDateRule
      dsimp only
      rw [if_neg]
      rintro ⟨hd, -⟩
      have h31 := hiff.mp hd
      unfold dayMs at h31
      omega

/-- C8 witness: a receipt dated 45 whole days before "now" gets the flag. -/
theorem date_flag_spec_witness :
    tooOldFlag ∈ applyDateRule (some 0) (45 * dayMs) [] :=
  ((date_flag_spec (45 * dayMs) 0 []).2 (by simp)).2.2.1 (by simp)

section NullAmountLemmas

/-- A null-amount fold over rows whose amounts are all null yields zero. -/
theorem foldl_getD_zero {α : Type} (f : α → Option Int) (l : List α)
    (h : ∀ r ∈ l, f r = none) :
    l.foldl (fun acc r => acc + (f r).getD 0) 0 = 0 := by
  rw [foldl_add_eq_sum, zero_add]
  apply List.sum_eq_zero
  intro x hx
  rcases List.mem_map.mp hx with ⟨r, hr, rfl⟩
  rw [h r hr]
  rfl

end NullAmountLemmas

/-- A store with a single admin_approved receipt whose amounts are null. -/
def stNullReceipt : St :=
  { departments := [],
    receipts := [{ id := 1, departmentId := 1, amountTotal := none,
                   amountGst := none, status := ReceiptStatus.admin_approved,
                   batchId := none, rejectedBy := none, rejectionReason := none }],
    batches := [], nextReceiptId := 2, nextBatchId := 1 }

/-- C10: every monetary aggregation treats a null amount as 0.00: a receipt
with null amountTotal contributes nothing to getFloat's usedFloat; a batch
created from receipts all of whose amounts are null gets totals 0.00 rather
than failing; and recalculateBatchTotals stores 0.00 when every counted member
has null amounts. -/
theorem null_amounts_zero :
    (∀ (s : St) (did : Nat) (r : Receipt), r.amountTotal = none →
        (calculateDepartmentFloat { s with receipts := r :: s.receipts } did).usedFloat =
          (calculateDepartmentFloat s did).usedFloat) ∧
    (∀ (s : St) (did : Nat) (rids : List Nat),
        (∀ r ∈ s.receipts, r.id ∈ rids → r.amountTotal = none ∧ r.amountGst = none) →
        ∃ b ∈ (createBatch s did rids).1.batches,
          b.id = (createBatch s did rids).2 ∧ b.totalAmount = 0 ∧ b.totalGst = 0) ∧
    (∀ (s : St) (bid : Nat),
        (∀ r ∈ s.receipts, r.batchId = some bid →
          r.status = ReceiptStatus.admin_approved →
          r.amountTotal = none ∧ r.amountGst = none) →
        ∀ b ∈ (recalculateBatchTotals s bid).batches, b.id = bid →
          b.totalAmount = 0 ∧ b.totalGst = 0) := by
  refine ⟨?_, ?_, ?_⟩
  · intro s did r h
    unfold calculateDepartmentFloat
    dsimp only
    by_cases hp : (r.departmentId == did &&
        (r.status == ReceiptStatus.admin_approved ||
          r.status == ReceiptStatus.hod_approved)) = true
    · rw [List.filter_cons, if_pos hp, List.foldl_cons]
      simp [h]
    · rw [List.filter_cons, if_neg hp]
  · intro s did rids h
    have hmemb : ∀ r ∈ s.receipts.filter (fun r => rids.contains r.id),
        r.amountTotal = none ∧ r.amountGst = none := by
      intro r hr
      rcases List.mem_filter.mp hr with ⟨hmem, hcont⟩
      exact h r hmem (by simpa using hcont)
    have hA := foldl_getD_zero Receipt.amountTotal _ (fun r hr => (hmemb r hr).1)
    have hG := foldl_getD_zero Receipt.amountGst _ (fun r hr => (hmemb r hr).2)
    unfold createBatch
    dsimp only
    rw [hA, hG]
    exact ⟨_, List.mem_append_right _ (List.mem_singleton_self _), rfl, rfl, rfl⟩
  · intro s bid h
    have hmemb : ∀ r ∈ s.receipts.filter (fun r =>
        r.batchId == some bid && r.status == ReceiptStatus.admin_approved),
        r.amountTotal = none ∧ r.amountGst = none := by
      intro r hr
      rcases List.mem_filter.mp hr with ⟨hmem, hcond⟩
      have hcond' : r.batchId = some bid ∧ r.status = ReceiptStatus.admin_approved := by
        simpa using hcond
      exact h r hmem hcond'.1 hcond'.2
    have hA : recalcAmountAt s bid = 0 :=
      foldl_getD_zero Receipt.amountTotal _ (fun r hr => (hmemb r hr).1)
    have hG : recalcGstAt s bid = 0 :=
      foldl_getD_zero Receipt.amountGst _ (fun r hr => (hmemb r hr).2)
    intro b hb hbid
    rw [recalculateBatchTotals_eq] at hb
    dsimp only at hb
    rcases List.mem_map.mp hb with ⟨c, hc, rfl⟩
    by_cases hcid : c.id = bid
    · rw [if_pos hcid]
      exact ⟨hA, hG⟩
    · rw [if_neg hcid] at hbid
      exact absurd hbid hcid

/-- C10 witness: a batch built from a single null-amount receipt is created
with totals 0.00. -/
theorem null_amounts_zero_witness :
    ∃ b ∈ (createBatch stNullReceipt 1 [1]).1.batches,
      b.id = (createBatch stNullReceipt 1 [1]).2 ∧ b.totalAmount = 0 ∧ b.totalGst = 0 :=
  null_amounts_zero.2.1 stNullReceipt 1 [1] (by decide)

section DetachPreservation

/-- An empty store. -/
def stEmpty : St :=
  { departments := [], receipts := [], batches := [], nextReceiptId := 1, nextBatchId := 1 }

/-- A reachable store violating the detach invariant: create a receipt, reject
it, then pass its id to batch.create, which re-attaches a batchId to the
rejected receipt without checking its status. -/
def stC4 : St :=
  (createBatch
    (receiptReject (receiptCreate stEmpty 1 (some 1000) (some 70)) 1 "Admin" "not claimable")
    1 [1]).1

theorem rejDetached_updateReceiptStatus (s : St) (id : Nat) (status : ReceiptStatus)
    (hst : status ≠ ReceiptStatus.rejected) (h : RejectedDetached s) :
    RejectedDetached (updateReceiptStatus s id status) := by
  intro r hr hrej
  unfold updateReceiptStatus at hr
  dsimp only at hr
  rcases List.mem_map.mp hr with ⟨x, hx, rfl⟩
  by_cases hxid : x.id = id
  · rw [if_pos hxid] at hrej
    exact absurd (by simpa using hrej) hst
  · rw [if_neg hxid] at hrej ⊢
    exact h x hx hrej

theorem rejDetached_rejectReceipt (s : St) (id : Nat) (a c : String)
    (h : RejectedDetached s) : RejectedDetached (rejectReceipt s id a c) := by
  intro r hr hrej
  unfold rejectReceipt at hr
  dsimp only at hr
  rcases List.mem_map.mp hr with ⟨x, hx, rfl⟩
  by_cases hxid : x.id = id
  · rw [if_pos hxid]
    rfl
  · rw [if_neg hxid] at hrej ⊢
    exact h x hx hrej

theorem rejDetached_foldl {α : Type} (f : St → α → St)
    (hf : ∀ st a, RejectedDetached st → RejectedDetached (f st a)) :
    ∀ (l : List α) (s : St), RejectedDetached s → RejectedDetached (l.foldl f s) := by
  intro l
  induction l with
  | nil => intro s h; exact h
  | cons a t ih => intro s h; exact ih (f s a) (hf s a h)

/-- Every permitted server call preserves the detach invariant. -/
theorem rejDetached_goodStep {s s' : St} (hs : GoodStep s s')
    (h : RejectedDetached s) : RejectedDetached s' := by
  cases hs with
  | receiptCreate did amt gst =>
    intro r hr hrej
    unfold receiptCreate at hr
    dsimp only at hr
    rcases List.mem_append.mp hr with hr' | hr'
    · exact h r hr' hrej
    · rcases List.mem_singleton.mp hr' with rfl
      simp at hrej
  | adminApprove id =>
    exact rejDetached_updateReceiptStatus s id ReceiptStatus.admin_approved (by decide) h
  | receiptReject id a c =>
    exact rejDetached_rejectReceipt s id a c h
  | createBatch did rids hg =>
    intro r hr hrej
    unfold createBatch at hr
    dsimp only at hr
    rcases List.mem_map.mp hr with ⟨x, hx, rfl⟩
    by_cases hxid : (rids.contains x.id) = true
    · rw [if_pos hxid] at hrej
      exact absurd (by simpa using hrej) (hg x hx (by simpa using hxid))
    · rw [if_neg hxid] at hrej ⊢
      exact h x hx hrej
  | hodApprove bid rids rs hres =>
    unfold hodApprove at hres
    cases hb : getBatchById s bid with
    | none => rw [hb] at hres; exact absurd hres (by simp)
    | some b =>
      rw [hb] at hres
      dsimp only at hres
      rcases Option.some.injEq _ _ ▸ hres with rfl
      have h1 : RejectedDetached (applyHodRejections s rids rs) := by
        unfold applyHodRejections
        exact rejDetached_foldl _ (fun st rid => rejDetached_rejectReceipt st rid _ _) _ s h
      have h2 : RejectedDetached
          (recalculateBatchTotals (applyHodRejections s rids rs) bid) := h1
      have h3 : RejectedDetached
          ((getReceiptsByBatch (recalculateBatchTotals (applyHodRejections s rids rs) bid) bid).foldl
            (fun st r =>
              if r.status = ReceiptStatus.admin_approved
              then updateReceiptStatus st r.id ReceiptStatus.hod_approved else st)
            (recalculateBatchTotals (applyHodRejections s rids rs) bid)) := by
        apply rejDetached_foldl
        · intro st r hst
          by_cases hc : r.status = ReceiptStatus.admin_approved
          · rw [if_pos hc]
            exact rejDetached_updateReceiptStatus st r.id ReceiptStatus.hod_approved (by decide) hst
          · rw [if_neg hc]
            exact hst
        · exact h2
      exact h3
  | financeApprove bid hres =>
    unfold financeApprove at hres
    cases hb : getBatchById s bid with
    | none => rw [hb] at hres; exact absurd hres (by simp)
    | some b =>
      rw [hb] at hres
      dsimp only at hres
      rcases Option.some.injEq _ _ ▸ hres with rfl
      have h3 : RejectedDetached
          ((getReceiptsByBatch s bid).foldl
            (fun st r =>
              if r.status = ReceiptStatus.hod_approved
              then updateReceiptStatus st r.id ReceiptStatus.paid else st) s) := by
        apply rejDetached_foldl
        · intro st r hst
          by_cases hc : r.status = ReceiptStatus.hod_approved
          · rw [if_pos hc]
            exact rejDetached_updateReceiptStatus st r.id ReceiptStatus.paid (by decide) hst
          · rw [if_neg hc]
            exact hst
        · exact h
      exact h3

end DetachPreservation

/-- C4 counterexample: in the reachable store stC4 (create, reject, then
batch.create on the rejected receipt's id) there is a rejected receipt whose
batchId is not null, because db.createBatch assigns batchId without checking
receipt status. -/
theorem rejection_detaches_counterexample :
    ¬ ∀ r ∈ stC4.receipts, r.status = ReceiptStatus.rejected → r.batchId = none := by
  decide

/-- C4 (amended): receipt.reject itself does set status=rejected and clear
batchId unconditionally; and the invariant "rejected implies batchId = null"
is preserved by every operation provided batch.create is only applied to
receipt ids that are not currently rejected (its documented precondition), so
it holds in every store reachable that way from a store satisfying it. -/
theorem rejection_detaches_amended :
    (∀ (s : St) (id : Nat) (actor reason : String),
        ∀ r ∈ (receiptReject s id actor reason).receipts,
          r.id = id → r.status = ReceiptStatus.rejected ∧ r.batchId = none) ∧
    (∀ s s' : St, Relation.ReflTransGen GoodStep s s' →
        RejectedDetached s → RejectedDetached s') := by
  constructor
  · intro s id actor reason r hr hid
    unfold receiptReject rejectReceipt at hr
    dsimp only at hr
    rcases List.mem_map.mp hr with ⟨x, hx, rfl⟩
    by_cases hxid : x.id = id
    · rw [if_pos hxid]
      exact ⟨rfl, rfl⟩
    · rw [if_neg hxid] at hid ⊢
      exact absurd hid hxid
  · intro s s' hrtg h
    induction hrtg with
    | refl => exact h
    | tail _ hstep ih => exact rejDetached_goodStep hstep ih

/-- The receipt row after the concrete create-then-reject chain. -/
def rC4w : Receipt :=
  { id := 1, departmentId := 1, amountTotal := some 1000, amountGst := some 70,
    status := ReceiptStatus.rejected, batchId := none,
    rejectedBy := some "Admin", rejectionReason := some "dup" }

/-- C4 amended witness: along a concrete two-step chain (create then reject)
from the empty store, the rejected receipt is detached (batchId null). -/
theorem rejection_detaches_amended_witness : rC4w.batchId = none :=
  rejection_detaches_amended.2 stEmpty
    (receiptReject (receiptCreate stEmpty 1 (some 1000) (some 70)) 1 "Admin" "dup")
    (Relation.ReflTransGen.tail
      (Relation.ReflTransGen.tail Relation.ReflTransGen.refl
        (GoodStep.receiptCreate 1 (some 1000) (some 70)))
      (GoodStep.receiptReject 1 "Admin" "dup"))
    (by intro r hr hrej; cases hr)
    rC4w (by decide) (by decide)

/-- C9 counterexample: getFloat on a department id with no department row does
not fail: it returns a FloatInfo with the fallback ceiling of 3500.00. -/
theorem notFound_counterexample :
    getDepartmentById stEmpty 1 = none ∧
    calculateDepartmentFloat stEmpty 1 =
      { totalFloat := 350000, usedFloat := 0, remainingFloat := 350000 } := by
  decide

/-- C9 (amended): only the batch operations fail on an unknown id:
batch.hodApprove and batch.financeApprove on an unknown batch id throw and
mutate nothing; receipt.adminApprove and receipt.reject on an unknown receipt
id mutate nothing but report success rather than failing; and getFloat on an
unknown department id returns the fallback totalFloat of 3500.00 (usedFloat
still summed over that department's receipts) instead of failing. -/
theorem notFound_amended :
    (∀ (s : St) (bid : Nat) (rids : List Nat) (rs : Nat → Option String),
        getBatchById s bid = none → hodApprove s bid rids rs = none) ∧
    (∀ (s : St) (bid : Nat), getBatchById s bid = none → financeApprove s bid = none) ∧
    (∀ (s : St) (id : Nat), getReceiptById s id = none → adminApprove s id = s) ∧
    (∀ (s : St) (id : Nat) (a c : String), getReceiptById s id = none →
        receiptReject s id a c = s) ∧
    (∀ (s : St) (did : Nat), getDepartmentById s did = none →
        calculateDepartmentFloat s did =
          { totalFloat := defaultFloat, usedFloat := usedFloatSpec s did,
            remainingFloat := defaultFloat - usedFloatSpec s did }) := by
  have hnone : ∀ (s : St) (id : Nat), getReceiptById s id = none →
      ∀ r ∈ s.receipts, ¬ r.id = id := by
    intro s id h r hr
    have := List.find?_eq_none.mp h r hr
    simpa using this
  refine ⟨?_, ?_, ?_, ?_, ?_⟩
  · intro s bid rids rs h
    unfold hodApprove
    rw [h]
  · intro s bid h
    unfold financeApprove
    rw [h]
  · intro s id h
    unfold adminApprove updateReceiptStatus
    rw [List.map_congr_left (fun r hr => if_neg (hnone s id h r hr)), List.map_id']
  · intro s id a c h
    unfold receiptReject rejectReceipt
    rw [List.map_congr_left (fun r hr => if_neg (hnone s id h r hr)), List.map_id']
  · intro s did h
    unfold calculateDepartmentFloat
    rw [h]
    dsimp only
    rw [usedFloat_eq]

/-- C9 amended witness: the amended behaviors evaluated on the empty store
with id 1 (which matches no row of any table). -/
theorem notFound_amended_witness :
    hodApprove stEmpty 1 [] (fun _ => none) = none ∧
    financeApprove stEmpty 1 = none ∧
    adminApprove stEmpty 1 = stEmpty ∧
    receiptReject stEmpty 1 "Admin" "typo" = stEmpty ∧
    calculateDepartmentFloat stEmpty 1 =
      { totalFloat := defaultFloat, usedFloat := usedFloatSpec stEmpty 1,
        remainingFloat := defaultFloat - usedFloatSpec stEmpty 1 } :=
  ⟨notFound_amended.1 stEmpty 1 [] (fun _ => none) rfl,
   notFound_amended.2.1 stEmpty 1 rfl,
   notFound_amended.2.2.1 stEmpty 1 rfl,
   notFound_amended.2.2.2.1 stEmpty 1 "Admin" "typo" rfl,
   notFound_amended.2.2.2.2 stEmpty 1 rfl⟩

section BatchTotals

/-- No per-receipt rejection reasons supplied. -/
def noReasons : Nat → Option String := fun _ => none

/-- A reachable store with one receipt (4500 cents) admin_approved and batched:
create, adminApprove, createBatch. -/
def stC2pre : St :=
  (createBatch (adminApprove (receiptCreate stEmpty 1 (some 4500) (some 0)) 1) 1 [1]).1

/-- The batch row of stC2pre. -/
def bPre : Batch :=
  { id := 1, departmentId := 1, totalAmount := 4500, totalGst := 0,
    status := BatchStatus.pending_hod }

/-- stC2pre after a first hodApprove: its member is hod_approved and the batch
is pending_finance with totals 4500/0. -/
def stC2 : St := (hodApprove stC2pre 1 [] noReasons).getD stEmpty

/-- The sums recalculateBatchTotals computes on the post-rejection store agree
with the claim-side non-rejected member sums of the final store, provided
every member was admin_approved going in. -/
theorem postRejection_sum (f : Receipt → Option Int)
    (hf2 : ∀ t r, f (statusUpd t r) = f r)
    (s : St) (bid : Nat) (rids : List Nat) (rs : Nat → Option String)
    (hall : ∀ r ∈ s.receipts, r.batchId = some bid →
        r.status = ReceiptStatus.admin_approved) :
    ((s.receipts.map (rejFun rids rs)).filter (fun r =>
        r.batchId == some bid && r.status == ReceiptStatus.admin_approved)).foldl
      (fun acc r => acc + (f r).getD 0) 0 =
    (((s.receipts.map (rejFun rids rs)).map
        (promFun bid ReceiptStatus.admin_approved ReceiptStatus.hod_approved)).map
      (fun r =>
        if r.batchId = some bid ∧ r.status ≠ ReceiptStatus.rejected
        then (f r).getD 0 else 0)).sum := by
  rw [foldl_add_eq_sum, zero_add, sum_filter_map, List.map_map, List.map_map, List.map_map]
  apply congrArg List.sum
  apply List.map_congr_left
  intro x hx
  simp only [Function.comp]
  by_cases hxr : x.id ∈ rids
  · simp [rejFun, promFun, hxr]
  · by_cases hxb : x.batchId = some bid
    · have hst := hall x hx hxb
      simp [rejFun, promFun, hxr, hxb, hst, hf2]
    · simp [rejFun, promFun, hxr, hxb]

end BatchTotals

/-- C2 counterexample: calling hodApprove a second time on a batch whose
member is already hod_approved stores totalAmount 0 (the recalculation counts
only admin_approved members), while the sum over non-rejected members is
4500: the claimed equality fails after this call. -/
theorem batch_total_counterexample :
    (hodApprove stC2 1 [] noReasons).map (fun s2 =>
        ((getBatchById s2 1).map Batch.totalAmount, nonRejectedMemberAmount s2 1)) =
      some (some 0, 4500) ∧ (0 : Int) ≠ 4500 := by
  decide

/-- C2 (amended): after a hodApprove call on a batch all of whose member
receipts are admin_approved at the start of the call (the normal pending_hod
situation), the stored batch.totalAmount equals the sum of amountTotal over
the batch's non-rejected member receipts in the resulting store, and likewise
batch.totalGst for amountGst (amounts in exact cents, so the 2-decimal
rounding is the identity). -/
theorem batch_total_amended (s : St) (bid : Nat) (rids : List Nat)
    (rs : Nat → Option String) (b : Batch) (s' : St)
    (hnd : (s.receipts.map Receipt.id).Nodup)
    (hb : getBatchById s bid = some b)
    (hall : ∀ r ∈ s.receipts, r.batchId = some bid →
        r.status = ReceiptStatus.admin_approved)
    (hres : hodApprove s bid rids rs = some s') :
    ∀ b' ∈ s'.batches, b'.id = bid →
      b'.totalAmount = nonRejectedMemberAmount s' bid ∧
      b'.totalGst = nonRejectedMemberGst s' bid := by
  rw [hodApprove_eq s bid rids rs b hb hnd] at hres
  injection hres with hres
  subst hres
  intro b' hb' hbid
  dsimp only at hb'
  rcases List.mem_map.mp hb' with ⟨c, hc, rfl⟩
  by_cases hcid : c.id = bid
  · rw [if_pos hcid]
    constructor
    · show recalcAmountAt (applyHodRejections s rids rs) bid = _
      unfold recalcAmountAt nonRejectedMemberAmount
      rw [applyHodRejections_eq]
      dsimp only
      exact postRejection_sum Receipt.amountTotal (fun _ _ => rfl) s bid rids rs hall
    · show recalcGstAt (applyHodRejections s rids rs) bid = _
      unfold recalcGstAt nonRejectedMemberGst
      rw [applyHodRejections_eq]
      dsimp only
      exact postRejection_sum Receipt.amountGst (fun _ _ => rfl) s bid rids rs hall
  · rw [if_neg hcid] at hbid
    exact absurd hbid hcid

/-- The batch row of stC2 (after the first hodApprove). -/
def bFin : Batch :=
  { id := 1, departmentId := 1, totalAmount := 4500, totalGst := 0,
    status := BatchStatus.pending_finance }

/-- C2 amended witness: the first hodApprove on the all-admin_approved batch
of stC2pre produces stC2, whose stored batch totals (4500/0 cents) match the
non-rejected member sums. -/
theorem batch_total_amended_witness :
    bFin.totalAmount = nonRejectedMemberAmount stC2 1 ∧
    bFin.totalGst = nonRejectedMemberGst stC2 1 :=
  batch_total_amended stC2pre 1 [] noReasons bPre stC2
    (by decide) (by decide) (by decide) (by decide) bFin (by decide) (by decide)

/-- C3: on an existing batch, hodApprove always succeeds and in the result:
every receipt whose id was listed is rejected with actor "HOD" and its
supplied reason (default "Rejected during batch approval"); the batch row
carries exactly the totals recomputed on the post-rejection store (i.e. after
ALL the call's rejections were applied); every member that is still
admin_approved after the rejections ends hod_approved; and the batch itself
ends pending_finance unconditionally - it advances even if every member was
rejected. -/
theorem hodApprove_spec (s : St) (bid : Nat) (rids : List Nat)
    (rs : Nat → Option String) (b : Batch)
    (hb : getBatchById s bid = some b)
    (hnd : (s.receipts.map Receipt.id).Nodup) :
    ∃ s', hodApprove s bid rids rs = some s' ∧
      (∀ r' ∈ s'.receipts, r'.id ∈ rids →
          r'.status = ReceiptStatus.rejected ∧ r'.rejectedBy = some "HOD" ∧
          r'.rejectionReason = some ((rs r'.id).getD defaultRejectionReason)) ∧
      (∀ b' ∈ s'.batches, b'.id = bid →
          b'.totalAmount = recalcAmountAt (applyHodRejections s rids rs) bid ∧
          b'.totalGst = recalcGstAt (applyHodRejections s rids rs) bid ∧
          b'.status = BatchStatus.pending_finance) ∧
      (∀ r ∈ (applyHodRejections s rids rs).receipts,
          r.batchId = some bid → r.status = ReceiptStatus.admin_approved →
          ∀ r' ∈ s'.receipts, r'.id = r.id → r'.status = ReceiptStatus.hod_approved) := by
  refine ⟨_, hodApprove_eq s bid rids rs b hb hnd, ?_, ?_, ?_⟩
  · intro r' hr' hid
    dsimp only at hr'
    rcases List.mem_map.mp hr' with ⟨y, hy, rfl⟩
    rcases List.mem_map.mp hy with ⟨x, hx, rfl⟩
    have hid' : x.id ∈ rids := by simpa using hid
    simp [rejFun, promFun, hid']
  · intro b' hb' hbid
    dsimp only at hb'
    rcases List.mem_map.mp hb' with ⟨c, hc, rfl⟩
    by_cases hcid : c.id = bid
    · rw [if_pos hcid]
      exact ⟨rfl, rfl, rfl⟩
    · rw [if_neg hcid] at hbid
      exact absurd hbid hcid
  · intro r hr hrb hrs' r' hr' hid
    rw [applyHodRejections_eq] at hr
    dsimp only at hr
    dsimp only at hr'
    rcases List.mem_map.mp hr' with ⟨y, hy, rfl⟩
    have hnd1 : ((s.receipts.map (rejFun rids rs)).map Receipt.id).Nodup := by
      rw [map_id_rejFun]
      exact hnd
    have hyr : y = r := List.inj_on_of_nodup_map hnd1 hy hr (by simpa using hid)
    subst hyr
    simp [promFun, hrb, hrs']

/-- C3 witness: hodApprove on stC2pre rejecting its only member still
advances the batch to pending_finance with totals 0.00, and the member ends
rejected with the default reason. -/
theorem hodApprove_spec_witness :
    ∃ s', hodApprove stC2pre 1 [1] noReasons = some s' ∧
      (∀ r' ∈ s'.receipts, r'.id ∈ [1] →
          r'.status = ReceiptStatus.rejected ∧ r'.rejectedBy = some "HOD" ∧
          r'.rejectionReason = some ((noReasons r'.id).getD defaultRejectionReason)) ∧
      (∀ b' ∈ s'.batches, b'.id = 1 →
          b'.totalAmount = recalcAmountAt (applyHodRejections stC2pre [1] noReasons) 1 ∧
          b'.totalGst = recalcGstAt (applyHodRejections stC2pre [1] noReasons) 1 ∧
          b'.status = BatchStatus.pending_finance) ∧
      (∀ r ∈ (applyHodRejections stC2pre [1] noReasons).receipts,
          r.batchId = some 1 → r.status = ReceiptStatus.admin_approved →
          ∀ r' ∈ s'.receipts, r'.id = r.id → r'.status = ReceiptStatus.hod_approved) :=
  hodApprove_spec stC2pre 1 [1] noReasons bPre (by decide) (by decide)

/-- A store whose only batch is pending_finance with zero member receipts and
totals 0.00 (every member was rejected during HOD approval). -/
def stZeroBatch : St :=
  { departments := [], receipts := [],
    batches := [{ id := 1, departmentId := 1, totalAmount := 0, totalGst := 0,
                  status := BatchStatus.pending_finance }],
    nextReceiptId := 1, nextBatchId := 2 }

/-- The batch row of stZeroBatch. -/
def bZero : Batch :=
  { id := 1, departmentId := 1, totalAmount := 0, totalGst := 0,
    status := BatchStatus.pending_finance }

/-- C7: on an existing batch, financeApprove succeeds and in the result every
member receipt that was hod_approved is paid, every other receipt (members in
other statuses included) is unchanged, and the batch row is paid; nothing in
this requires the batch to have members, so a zero-receipt zero-total batch
disburses as a no-op. -/
theorem financeApprove_spec (s : St) (bid : Nat) (b : Batch)
    (hb : getBatchById s bid = some b)
    (hnd : (s.receipts.map Receipt.id).Nodup) :
    ∃ s', financeApprove s bid = some s' ∧
      s'.receipts = s.receipts.map (fun r =>
        if r.batchId = some bid ∧ r.status = ReceiptStatus.hod_approved
        then statusUpd ReceiptStatus.paid r else r) ∧
      s'.batches = s.batches.map (fun c =>
        if c.id = bid then { c with status := BatchStatus.paid } else c) ∧
      s'.departments = s.departments :=
  ⟨_, financeApprove_eq s bid b hb hnd, rfl, rfl, rfl⟩

/-- C7 witness: finance disburses the zero-member zero-value batch of
stZeroBatch: the batch becomes paid and the (empty) receipt set is unchanged. -/
theorem financeApprove_spec_witness :
    ∃ s', financeApprove stZeroBatch 1 = some s' ∧
      s'.receipts = stZeroBatch.receipts.map (fun r =>
        if r.batchId = some 1 ∧ r.status = ReceiptStatus.hod_approved
        then statusUpd ReceiptStatus.paid r else r) ∧
      s'.batches = stZeroBatch.batches.map (fun c =>
        if c.id = 1 then { c with status := BatchStatus.paid } else c) ∧
      s'.departments = stZeroBatch.departments :=
  financeApprove_spec stZeroBatch 1 bZero (by decide) (by decide)

end Claimify
